import Mathlib

set_option maxHeartbeats 1000000

/-!
Verification of the stay-contented server (src/server.js): a shallow
embedding of the mixed-mode allocation stage, the structured-generation
client, the job pipeline runner and the two HTTP handlers, together with
theorems settling the specification claims about them.
-/

/- ===== String helpers modelling the JS string primitives used ===== -/

/-- Character-wise lowercasing, modelling JS toLowerCase on the ASCII
range that the keyword scan of applyMixedMode uses. -/
def lowerStr (s : String) : String := String.mk (s.data.map Char.toLower)

/-- Substring containment, modelling JS String.prototype.includes. -/
def containsSub (hay sub : String) : Bool :=
  hay.data.tails.any (fun t => sub.data.isPrefixOf t)

/-- The first n characters of a string, modelling JS slice(0, n). -/
def takeStr (n : Nat) (s : String) : String := String.mk (s.data.take n)

/-- JS expression err?.message or the fallback: an empty (or absent)
message is replaced by the literal Unknown error, any other message is
kept verbatim.  This is the exact semantics of the JS or-operator on a
string, where the empty string is falsy. -/
def jsMsg (e : String) : String := if e = "" then "Unknown error" else e

/- ===== Data model: posts and the plan document ===== -/

/-- One planned post, restricted to the fields read by applyMixedMode and
the job runner: id, post_type, topic, angle (possibly absent) and the
visual_mode tag (absent until mode allocation assigns one). -/
structure Post where
  id : String
  post_type : String
  topic : String
  angle : Option String
  visual_mode : Option String
deriving DecidableEq

/-- The plan document as far as src/server.js reads it: the optional chain
planJson?.plan?.posts collapses to an optional posts list, where none
models a missing plan or posts path. -/
structure PlanJson where
  posts : Option (List Post)
deriving DecidableEq

/- ===== applyMixedMode (src/server.js lines 96 to 126) ===== -/

/-- The keyword test inside applyMixedMode: the lowercased text
topic plus a space plus (angle or empty) contains one of the five fixed
keywords product, offer, pricing, launch, features. -/
def productishHit (p : Post) : Bool :=
  let t := lowerStr (p.topic ++ " " ++ p.angle.getD "")
  containsSub t "product" || containsSub t "offer" || containsSub t "pricing" ||
    containsSub t "launch" || containsSub t "features"

/-- The capped push loop of applyMixedMode: for each element, push it onto
the accumulator only while the accumulator holds fewer than cap entries. -/
def pushWhileUnder (cap : Nat) (acc : List Post) (xs : List Post) : List Post :=
  xs.foldl (fun a p => if a.length < cap then a ++ [p] else a) acc

/-- The chosen array built by applyMixedMode: every promotional post is
pushed unconditionally, then keyword-matching non-promotional posts while
under four entries, then all non-promotional posts (keyword matches
included again) while under four entries. -/
def chosenList (posts : List Post) : List Post :=
  let promo := posts.filter (fun p => p.post_type == "promotional")
  let remaining := posts.filter (fun p => p.post_type != "promotional")
  let productish := remaining.filter productishHit
  pushWhileUnder 4 (pushWhileUnder 4 promo productish) remaining

/-- The id set chosen.slice(0, 4).map(p at id) of applyMixedMode. -/
def chosenIds (posts : List Post) : List String :=
  ((chosenList posts).take 4).map (fun p => p.id)

/-- The per-post mutation of applyMixedMode: visual_mode is set to
product_model when the id is among the chosen ids, editorial otherwise. -/
def tagPost (ids : List String) (p : Post) : Post :=
  { p with visual_mode := some (if ids.contains p.id then "product_model" else "editorial") }

/-- applyMixedMode from src/server.js: reads planJson?.plan?.posts (empty
list when absent), returns the plan unchanged when the list is empty, and
otherwise assigns every post a visual_mode according to the chosen ids. -/
def applyMixedMode (planJson : PlanJson) : PlanJson :=
  let posts := planJson.posts.getD []
  if posts.isEmpty then planJson
  else { posts := some (posts.map (tagPost (chosenIds posts))) }

/-- Number of posts of a plan tagged product_model. -/
def productModelCount (planJson : PlanJson) : Nat :=
  ((planJson.posts.getD []).filter (fun p => p.visual_mode == some "product_model")).length

/-- Ids of the posts of a plan tagged product_model, in list order. -/
def productModelIds (planJson : PlanJson) : List String :=
  ((planJson.posts.getD []).filter (fun p => p.visual_mode == some "product_model")).map
    (fun p => p.id)

/-- Number of posts of a plan. -/
def postsCount (planJson : PlanJson) : Nat := (planJson.posts.getD []).length

/-- Whether every post of a plan carries a visual_mode tag. -/
def allTagged (planJson : PlanJson) : Bool :=
  (planJson.posts.getD []).all (fun p => p.visual_mode.isSome)

/-- The product_model selection as the spec words it (section 4.2): all
promotional posts first, then keyword-matching non-promotional posts, then
the remaining posts, each class in original list order, filling the set up
to exactly four members.  Stated here only for comparison with the code;
src/server.js is the authority for what the code does. -/
def specProductModelIds (posts : List Post) : List String :=
  let promo := posts.filter (fun p => p.post_type == "promotional")
  let kw := posts.filter (fun p => p.post_type != "promotional" && productishHit p)
  let rest := posts.filter (fun p => p.post_type != "promotional" && !(productishHit p))
  ((promo ++ kw ++ rest).take 4).map (fun p => p.id)

/- ===== Concrete plans exercising the allocation ===== -/

/-- A non-promotional post whose topic contains the keyword product. -/
def exPostA : Post :=
  { id := "PA", post_type := "educational", topic := "product basics", angle := some "",
    visual_mode := none }

/-- A non-promotional post with no keyword in topic or angle. -/
def exPostB : Post :=
  { id := "PB", post_type := "educational", topic := "morning routine", angle := none,
    visual_mode := none }

/-- A non-promotional post with no keyword in topic or angle. -/
def exPostC : Post :=
  { id := "PC", post_type := "relatable", topic := "team story", angle := none,
    visual_mode := none }

/-- A non-promotional post with no keyword in topic or angle. -/
def exPostD : Post :=
  { id := "PD", post_type := "authority", topic := "press mention", angle := none,
    visual_mode := none }

/-- A four-post plan on which the duplicate push of applyMixedMode fires. -/
def exPlanC1 : PlanJson := { posts := some [exPostA, exPostB, exPostC, exPostD] }

/-- The same four-post shape, used for the selection-order claim. -/
def exPlanC2 : PlanJson := { posts := some [exPostA, exPostB, exPostC, exPostD] }

/- ===== Facts about applyMixedMode ===== -/

lemma tagPost_tagPost (ids : List String) (p : Post) :
    tagPost ids (tagPost ids p) = tagPost ids p := rfl

lemma pushWhileUnder_map (ids : List String) (cap : Nat) :
    ∀ (xs acc : List Post),
      pushWhileUnder cap (acc.map (tagPost ids)) (xs.map (tagPost ids)) =
        (pushWhileUnder cap acc xs).map (tagPost ids) := by
  intro xs
  induction xs with
  | nil => intro acc; rfl
  | cons p rest ih =>
    intro acc
    simp only [pushWhileUnder, List.map_cons, List.foldl_cons, List.length_map]
    by_cases h : acc.length < cap
    · simp only [h, if_true]
      have := ih (acc ++ [p])
      simpa [pushWhileUnder, List.map_append] using this
    · simp only [h, if_false]
      exact ih acc

lemma chosenList_map (posts : List Post) (ids : List String) :
    chosenList (posts.map (tagPost ids)) = (chosenList posts).map (tagPost ids) := by
  have hc1 : ((fun p : Post => p.post_type == "promotional") ∘ tagPost ids) =
      fun p : Post => p.post_type == "promotional" := funext fun _ => rfl
  have hc2 : ((fun p : Post => p.post_type != "promotional") ∘ tagPost ids) =
      fun p : Post => p.post_type != "promotional" := funext fun _ => rfl
  have hc3 : (productishHit ∘ tagPost ids) = productishHit := funext fun _ => rfl
  have hpromo : (posts.map (tagPost ids)).filter (fun p => p.post_type == "promotional") =
      (posts.filter (fun p => p.post_type == "promotional")).map (tagPost ids) := by
    rw [List.filter_map, hc1]
  have hrem : (posts.map (tagPost ids)).filter (fun p => p.post_type != "promotional") =
      (posts.filter (fun p => p.post_type != "promotional")).map (tagPost ids) := by
    rw [List.filter_map, hc2]
  have hkw : ((posts.filter (fun p => p.post_type != "promotional")).map
        (tagPost ids)).filter productishHit =
      ((posts.filter (fun p => p.post_type != "promotional")).filter productishHit).map
        (tagPost ids) := by
    rw [List.filter_map, hc3]
  simp only [chosenList, hpromo, hrem, hkw]
  rw [pushWhileUnder_map, pushWhileUnder_map]

lemma chosenIds_map (posts : List Post) (ids : List String) :
    chosenIds (posts.map (tagPost ids)) = chosenIds posts := by
  unfold chosenIds
  rw [chosenList_map, ← List.map_take, List.map_map]
  rfl

lemma applyMixedMode_cons (p : Post) (rest : List Post) :
    applyMixedMode { posts := some (p :: rest) } =
      { posts := some ((p :: rest).map (tagPost (chosenIds (p :: rest)))) } := rfl

/-- C3: mode allocation is idempotent — applying applyMixedMode twice to any
plan yields exactly the plan obtained by applying it once, because the
selection reads only fields the tagging pass preserves. -/
theorem C3_applyMixedMode_idempotent (P : PlanJson) :
    applyMixedMode (applyMixedMode P) = applyMixedMode P := by
  obtain ⟨o⟩ := P
  cases o with
  | none => rfl
  | some l =>
    cases l with
    | nil => rfl
    | cons p rest =>
      have hmap : (p :: rest).map (tagPost (chosenIds (p :: rest))) =
          tagPost (chosenIds (p :: rest)) p ::
            rest.map (tagPost (chosenIds (p :: rest))) := rfl
      rw [applyMixedMode_cons, hmap, applyMixedMode_cons, ← hmap, chosenIds_map]
      congr 1
      rw [List.map_map]
      rfl

/-- C1 (code_bug evidence): on a four-post plan where the first post matches a
product keyword and none is promotional, the keyword pass and the fill pass
both push that post, so only three posts end up tagged product_model even
though the plan has four posts; every post still receives a visual_mode. -/
theorem C1_not_exactly_four :
    postsCount exPlanC1 = 4 ∧
    allTagged (applyMixedMode exPlanC1) = true ∧
    productModelCount (applyMixedMode exPlanC1) = 3 :=
  ⟨rfl, rfl, rfl⟩

/-- C2 (code_bug evidence): on the same four-post shape the code selects the
id set PA, PB, PC while the priority-class rule of the spec selects
PA, PB, PC, PD — the duplicate push consumes a slot, so the chosen set
diverges from the class-ordered fill the spec describes. -/
theorem C2_selection_diverges :
    productModelIds (applyMixedMode exPlanC2) = ["PA", "PB", "PC"] ∧
    specProductModelIds [exPostA, exPostB, exPostC, exPostD] = ["PA", "PB", "PC", "PD"] ∧
    productModelIds (applyMixedMode exPlanC2) ≠
      specProductModelIds (exPlanC2.posts.getD []) := by
  refine ⟨rfl, rfl, by decide⟩

/-- C10: a plan whose posts list is empty or absent is returned completely
unchanged by applyMixedMode — no post exists and no visual_mode is assigned. -/
theorem C10_empty_plan_unchanged (P : PlanJson)
    (h : P.posts = none ∨ P.posts = some []) : applyMixedMode P = P := by
  rcases h with h | h <;> simp [applyMixedMode, h]

theorem C10_witness :
    applyMixedMode { posts := none } = ({ posts := none } : PlanJson) :=
  C10_empty_plan_unchanged { posts := none } (Or.inl rfl)

/- ===== A model of JSON.parse ===== -/

/-- JSON document tree, the value shape produced by JSON.parse.  Numbers
are kept as their raw token text: no claim depends on numeric value. -/
inductive Json where
  | null : Json
  | bool (b : Bool) : Json
  | num (raw : String) : Json
  | str (s : String) : Json
  | arr (items : List Json) : Json
  | obj (fields : List (String × Json)) : Json

/-- The double-quote character. -/
def quoteC : Char := Char.ofNat 34

/-- The backslash character. -/
def backslashC : Char := Char.ofNat 92

/-- The left-brace character. -/
def lbraceC : Char := Char.ofNat 123

/-- The right-brace character. -/
def rbraceC : Char := Char.ofNat 125

/-- The left-bracket character. -/
def lbrackC : Char := Char.ofNat 91

/-- The right-bracket character. -/
def rbrackC : Char := Char.ofNat 93

/-- JSON insignificant whitespace. -/
def isWsChar (c : Char) : Bool := c = ' ' || c = '\t' || c = '\n' || c = '\r'

/-- Drop leading JSON whitespace. -/
def skipWs : List Char → List Char
  | [] => []
  | c :: rest => if isWsChar c then skipWs rest else c :: rest

/-- Value of one hexadecimal digit. -/
def hexVal (c : Char) : Option Nat :=
  if c.isDigit then some (c.toNat - 48)
  else if 'a' ≤ c && c ≤ 'f' then some (c.toNat - 87)
  else if 'A' ≤ c && c ≤ 'F' then some (c.toNat - 55)
  else none

/-- Single-character escapes of JSON string literals. -/
def escMap (c : Char) : Option Char :=
  if c = quoteC then some quoteC
  else if c = backslashC then some backslashC
  else if c = '/' then some '/'
  else if c = 'b' then some (Char.ofNat 8)
  else if c = 'f' then some (Char.ofNat 12)
  else if c = 'n' then some '\n'
  else if c = 'r' then some '\r'
  else if c = 't' then some '\t'
  else none

/-- Body of a JSON string literal after the opening quote: returns the
decoded characters and the input past the closing quote.  Raw control
characters and invalid escapes are rejected, as JSON.parse rejects them. -/
def parseStrChars : Nat → List Char → Option (List Char × List Char)
  | 0, _ => none
  | _, [] => none
  | fuel + 1, c :: rest =>
    if c = quoteC then some ([], rest)
    else if c = backslashC then
      match rest with
      | [] => none
      | e :: rest2 =>
        if e = 'u' then
          match rest2 with
          | h1 :: h2 :: h3 :: h4 :: rest3 =>
            match hexVal h1, hexVal h2, hexVal h3, hexVal h4 with
            | some a, some b, some g, some d =>
              (parseStrChars fuel rest3).map
                (fun r => (Char.ofNat (((a * 16 + b) * 16 + g) * 16 + d) :: r.1, r.2))
            | _, _, _, _ => none
          | _ => none
        else
          match escMap e with
          | none => none
          | some ch => (parseStrChars fuel rest2).map (fun r => (ch :: r.1, r.2))
    else if c.toNat < 32 then none
    else (parseStrChars fuel rest).map (fun r => (c :: r.1, r.2))

/-- Longest leading run of decimal digits. -/
def takeDigits : List Char → List Char × List Char
  | [] => ([], [])
  | c :: rest =>
    if c.isDigit then
      let r := takeDigits rest
      (c :: r.1, r.2)
    else ([], c :: rest)

/-- Integer part of a JSON number: a single zero, or a nonzero digit
followed by digits. -/
def parseIntPart : List Char → Option (List Char × List Char)
  | [] => none
  | c :: rest =>
    if c = '0' then some ([c], rest)
    else if c.isDigit then
      let r := takeDigits rest
      some (c :: r.1, r.2)
    else none

/-- Optional fraction part of a JSON number. -/
def parseFracPart : List Char → Option (List Char × List Char)
  | [] => some ([], [])
  | c :: rest =>
    if c = '.' then
      let r := takeDigits rest
      if r.1.isEmpty then none else some (c :: r.1, r.2)
    else some ([], c :: rest)

/-- Optional exponent part of a JSON number. -/
def parseExpPart : List Char → Option (List Char × List Char)
  | [] => some ([], [])
  | c :: rest =>
    if c = 'e' || c = 'E' then
      match rest with
      | [] => none
      | s :: rest2 =>
        if s = '+' || s = '-' then
          let r := takeDigits rest2
          if r.1.isEmpty then none else some (c :: s :: r.1, r.2)
        else
          let r := takeDigits (s :: rest2)
          if r.1.isEmpty then none else some (c :: r.1, r.2)
    else some ([], c :: rest)

/-- A full JSON number token. -/
def parseNumberTok (cs : List Char) : Option (List Char × List Char) :=
  match cs with
  | [] => none
  | c :: rest =>
    let (neg, rest1) : List Char × List Char :=
      if c = '-' then ([c], rest) else ([], c :: rest)
    match parseIntPart rest1 with
    | none => none
    | some (ip, rest2) =>
      match parseFracPart rest2 with
      | none => none
      | some (fp, rest3) =>
        match parseExpPart rest3 with
        | none => none
        | some (ep, rest4) => some (neg ++ ip ++ fp ++ ep, rest4)

/-- Expect a literal tail such as ull of null. -/
def expectLit (lit cs : List Char) : Option (List Char) :=
  if lit.isPrefixOf cs then some (cs.drop lit.length) else none

mutual

/-- Recursive-descent JSON value parser with fuel; models JSON.parse. -/
def parseVal : Nat → List Char → Option (Json × List Char)
  | 0, _ => none
  | f + 1, cs =>
    match skipWs cs with
    | [] => none
    | c :: rest =>
      if c = lbraceC then
        match skipWs rest with
        | [] => none
        | c2 :: rest2 =>
          if c2 = rbraceC then some (Json.obj [], rest2)
          else
            match parseMember f (c2 :: rest2) with
            | none => none
            | some (kv, rest3) =>
              match parseObjTail f rest3 with
              | none => none
              | some (kvs, rest4) => some (Json.obj (kv :: kvs), rest4)
      else if c = lbrackC then
        match skipWs rest with
        | [] => none
        | c2 :: rest2 =>
          if c2 = rbrackC then some (Json.arr [], rest2)
          else
            match parseVal f (c2 :: rest2) with
            | none => none
            | some (x, rest3) =>
              match parseArrTail f rest3 with
              | none => none
              | some (xs, rest4) => some (Json.arr (x :: xs), rest4)
      else if c = quoteC then
        match parseStrChars (rest.length + 1) rest with
        | none => none
        | some (s, rest2) => some (Json.str (String.mk s), rest2)
      else if c = 'n' then
        match expectLit ['u', 'l', 'l'] rest with
        | none => none
        | some rest2 => some (Json.null, rest2)
      else if c = 't' then
        match expectLit ['r', 'u', 'e'] rest with
        | none => none
        | some rest2 => some (Json.bool true, rest2)
      else if c = 'f' then
        match expectLit ['a', 'l', 's', 'e'] rest with
        | none => none
        | some rest2 => some (Json.bool false, rest2)
      else
        match parseNumberTok (c :: rest) with
        | none => none
        | some (tok, rest2) => some (Json.num (String.mk tok), rest2)

/-- One key-value member of a JSON object. -/
def parseMember : Nat → List Char → Option ((String × Json) × List Char)
  | 0, _ => none
  | f + 1, cs =>
    match skipWs cs with
    | [] => none
    | c :: rest =>
      if c = quoteC then
        match parseStrChars (rest.length + 1) rest with
        | none => none
        | some (k, rest2) =>
          match skipWs rest2 with
          | [] => none
          | c2 :: rest3 =>
            if c2 = ':' then
              match parseVal f rest3 with
              | none => none
              | some (v, rest4) => some ((String.mk k, v), rest4)
            else none
      else none

/-- Remaining members of a JSON object after the first. -/
def parseObjTail : Nat → List Char → Option (List (String × Json) × List Char)
  | 0, _ => none
  | f + 1, cs =>
    match skipWs cs with
    | [] => none
    | c :: rest =>
      if c = rbraceC then some ([], rest)
      else if c = ',' then
        match parseMember f rest with
        | none => none
        | some (kv, rest2) =>
          match parseObjTail f rest2 with
          | none => none
          | some (kvs, rest3) => some (kv :: kvs, rest3)
      else none

/-- Remaining items of a JSON array after the first. -/
def parseArrTail : Nat → List Char → Option (List Json × List Char)
  | 0, _ => none
  | f + 1, cs =>
    match skipWs cs with
    | [] => none
    | c :: rest =>
      if c = rbrackC then some ([], rest)
      else if c = ',' then
        match parseVal f rest with
        | none => none
        | some (x, rest2) =>
          match parseArrTail f rest2 with
          | none => none
          | some (xs, rest3) => some (x :: xs, rest3)
      else none

end

/-- JSON.parse: parse one value and require only whitespace behind it. -/
def jsonParse (s : String) : Option Json :=
  match parseVal (s.data.length + 1) s.data with
  | none => none
  | some (j, rest) => if (skipWs rest).isEmpty then some j else none

/- ===== Generation client (callOpenAIJson, src/server.js 181 to 198) ===== -/

/-- The fixed header of the parse-failure message of callOpenAIJson. -/
def parseFailHeader : String := "JSON parse failed. First 200 chars:\n"

/-- The parse-failure message of callOpenAIJson: the fixed header followed
by text.slice(0, 200). -/
def parseFailMsg (text : String) : String := parseFailHeader ++ takeStr 200 text

/-- callOpenAIJson from src/server.js applied to the response text the
chat endpoint returned: JSON.parse on success, and on parse failure the
thrown error whose message is the header plus the first 200 characters of
the raw text. -/
def callOpenAIJson (text : String) : Except String Json :=
  match jsonParse text with
  | some j => Except.ok j
  | none => Except.error (parseFailMsg text)

/- ===== Job orchestration (runJob, src/server.js 330 to 413) ===== -/

/-- The Job record fields the orchestration claims read.  The id, input
and createdAt fields of the source record are immutable after creation and
no claim depends on them, so they are omitted. -/
structure Job where
  status : String
  progress : Nat
  error : Option String
  downloadUrl : Option String
deriving DecidableEq

/-- The record inserted by the POST handler: status queued, progress 0. -/
def initJob : Job :=
  { status := "queued", progress := 0, error := none, downloadUrl := none }

/-- One entry of visualsJson.editorial_visuals, restricted to the id
field, the only field the orchestration control flow reads. -/
structure Visual where
  id : String
deriving DecidableEq

/-- Outcomes of the external calls of one pipeline run: the three
structured chat calls (plan, captions, visual briefs) and the image call
for each loop iteration.  An error value models the awaited promise
rejecting, carrying the thrown error message; for the chat calls this
includes the parse-failure message callOpenAIJson raises.  The plan
payload is the PlanJson shape the pipeline reads; the captions payload is
never read by control flow; the visuals payload is read only for its ids. -/
structure Oracle where
  planRes : Except String PlanJson
  captionsRes : Except String Unit
  visualsRes : Except String (List Visual)
  imageRes : Nat → Except String Unit

/-- Observable events of one runJob execution: job-record mutations,
stage boundaries, artifact writes, and suspension points (the await
boundaries, the only points at which other tasks observe the record). -/
inductive Ev where
  | setStatus (s : String)
  | setProgress (n : Nat)
  | setError (m : String)
  | setUrl (u : String)
  | stageStart (s : String)
  | stageEnd (s : String)
  | write (name : String)
  | suspend
deriving DecidableEq

/-- Effect of one event on the job record. -/
def applyEv (j : Job) : Ev → Job
  | Ev.setStatus s => { j with status := s }
  | Ev.setProgress n => { j with progress := n }
  | Ev.setError m => { j with error := some m }
  | Ev.setUrl u => { j with downloadUrl := some u }
  | _ => j

/-- The job record after a sequence of events. -/
def replayJob (j : Job) (evs : List Ev) : Job := evs.foldl applyEv j

/-- The job states visible at each suspension point of a trace. -/
def obsStates (j : Job) : List Ev → List Job
  | [] => []
  | Ev.suspend :: rest => j :: obsStates j rest
  | e :: rest => obsStates (applyEv j e) rest

/-- Artifact names written during a trace, in order.  The source never
deletes or rewrites an artifact, so this list is the final disk content. -/
def diskWrites (evs : List Ev) : List String :=
  evs.filterMap (fun e => match e with | Ev.write n => some n | _ => none)

/-- The sequence of status assignments of a trace. -/
def statusList (evs : List Ev) : List String :=
  evs.filterMap (fun e => match e with | Ev.setStatus s => some s | _ => none)

/-- The download URL runJob stores on success. -/
def dlUrl (jid : String) : String := "/downloads/" ++ jid ++ "/content_plan.json"

/-- The ids the image loop iterates over: compiled visuals (ids preserved
from the visuals payload) filtered to the posts tagged editorial. -/
def editorialOnlyIds (planJson : PlanJson) (visuals : List Visual) : List String :=
  let posts := planJson.posts.getD []
  let editorialIds := (posts.filter (fun p => p.visual_mode == some "editorial")).map
    (fun p => p.id)
  (visuals.filter (fun v => editorialIds.contains v.id)).map (fun v => v.id)

/-- The trace of the image-rendering loop and the epilogue of runJob: one
suspension per image call; on success the png is written and the loop
continues, ending with progress 100, status done and the download URL; on
a rejected call the catch block runs (status error, stored message). -/
def renderEvs (jid : String) (f : Nat → Except String Unit) : Nat → List String → List Ev
  | _, [] => [Ev.setProgress 100, Ev.setStatus "done", Ev.setUrl (dlUrl jid)]
  | i, pid :: rest =>
    Ev.suspend ::
      (match f i with
       | Except.error e => [Ev.setStatus "error", Ev.setError (jsMsg e)]
       | Except.ok _ =>
         Ev.write ("Editorial_Posts/" ++ pid ++ ".png") :: renderEvs jid f (i + 1) rest)

/-- runJob from src/server.js as its event trace, transcribed line by
line: status running and progress 10, the plan call (suspension), mode
allocation, progress 35, the captions call, progress 55, the visuals
call, progress 65, the six synchronous artifact writes, progress 75, then
the image loop.  Every rejected await reaches the single catch block,
which sets status error and stores err?.message or the fallback; nothing
is re-thrown and nothing written is removed. -/
def runJob (jid : String) (o : Oracle) : List Ev :=
  Ev.setStatus "running" :: Ev.setProgress 10 :: Ev.stageStart "plan" :: Ev.suspend ::
    (match o.planRes with
     | Except.error e => [Ev.setStatus "error", Ev.setError (jsMsg e)]
     | Except.ok planJson0 =>
       let planJson := applyMixedMode planJson0
       Ev.stageEnd "plan" :: Ev.setProgress 35 :: Ev.stageStart "captions" :: Ev.suspend ::
         (match o.captionsRes with
          | Except.error e => [Ev.setStatus "error", Ev.setError (jsMsg e)]
          | Except.ok _ =>
            Ev.stageEnd "captions" :: Ev.setProgress 55 ::
              Ev.stageStart "visual_brief" :: Ev.suspend ::
              (match o.visualsRes with
               | Except.error e => [Ev.setStatus "error", Ev.setError (jsMsg e)]
               | Except.ok visuals =>
                 Ev.stageEnd "visual_brief" :: Ev.setProgress 65 ::
                   Ev.write "content_plan.json" :: Ev.write "captions.json" ::
                   Ev.write "editorial_visuals.json" :: Ev.write "brand_style.json" ::
                   Ev.write "editorial_visuals_compiled.json" ::
                   Ev.write "product_model_briefs.json" ::
                   Ev.setProgress 75 :: Ev.stageStart "render" ::
                   renderEvs jid o.imageRes 0 (editorialOnlyIds planJson visuals))))

/-- The job states a poller can observe for one job: the created record,
the record at every suspension point of the run, and the final record. -/
def jobSnapshots (evs : List Ev) : List Job :=
  initJob :: (obsStates initJob evs ++ [replayJob initJob evs])

/-- The stage-outcome messages of an oracle: holds of raw exactly when
some external call of the run fails with message raw. -/
def stageFailed (o : Oracle) (raw : String) : Prop :=
  o.planRes = Except.error raw ∨ o.captionsRes = Except.error raw ∨
    o.visualsRes = Except.error raw ∨ ∃ k, o.imageRes k = Except.error raw

/- ===== HTTP handlers (src/server.js 416 to 437) ===== -/

/-- Responses of the two job routes: a created-job body carrying the job
id, a job snapshot body, a 404 body, or the 5xx the framework produces
when a handler throws synchronously. -/
inductive HttpResp where
  | jobCreated (jobId : String)
  | jobSnapshot (job : Job)
  | notFound (errBody : String)
  | serverError
deriving DecidableEq

/-- Lookup in the in-memory jobs map. -/
def lookupJob (jobsMap : List (String × Job)) (i : String) : Option Job :=
  match jobsMap.find? (fun kv => kv.1 == i) with
  | some kv => some kv.2
  | none => none

/-- The POST /api/jobs handler: JSON.parse(req.body.input_json or the
empty object literal); a parse failure is an uncaught synchronous throw,
which the framework surfaces as a server error with no job created;
otherwise a record in state queued is inserted and the fresh id returned.
The handler performs no validation of the parsed campaign context. -/
def postJobsHandler (inputJson : Option String) (jobsMap : List (String × Job))
    (newId : String) : HttpResp × List (String × Job) :=
  match jsonParse (inputJson.getD "{}") with
  | none => (HttpResp.serverError, jobsMap)
  | some _ => (HttpResp.jobCreated newId, (newId, initJob) :: jobsMap)

/-- The GET /api/jobs/:id handler: 404 with body Not found for an unknown
id, otherwise the stored job record. -/
def getJobHandler (jobsMap : List (String × Job)) (i : String) : HttpResp :=
  match lookupJob jobsMap i with
  | none => HttpResp.notFound "Not found"
  | some job => HttpResp.jobSnapshot job

/-- Field lookup in a JSON object. -/
def jsonLookup (fields : List (String × Json)) (k : String) : Option Json :=
  match fields.find? (fun kv => kv.1 == k) with
  | some kv => some kv.2
  | none => none

/-- Modelled from the spec: a well-formed Campaign Context per section 3
of the spec — an object carrying a brand object and a campaign object
whose cadence has a month string and a numeric posts_count.  src/server.js
contains no such validation; this definition exists only to state claim
C9 about malformed campaign contexts. -/
def specWellFormedContext (j : Json) : Bool :=
  match j with
  | Json.obj fields =>
    (match jsonLookup fields "brand" with
     | some (Json.obj _) => true
     | _ => false) &&
    (match jsonLookup fields "campaign" with
     | some (Json.obj cf) =>
       (match jsonLookup cf "month" with
        | some (Json.str _) => true
        | _ => false) &&
       (match jsonLookup cf "posts_count" with
        | some (Json.num _) => true
        | _ => false)
     | _ => false)
  | _ => false

/- ===== Trace-ordering predicates ===== -/

/-- Matches the start event of the named stage. -/
def isStartOf (s : String) (e : Ev) : Bool :=
  match e with
  | Ev.stageStart t => t == s
  | _ => false

/-- Matches the end event (call returned) of the named stage. -/
def isEndOf (s : String) (e : Ev) : Bool :=
  match e with
  | Ev.stageEnd t => t == s
  | _ => false

/-- Matches the write event of the named artifact. -/
def isWriteOf (n : String) (e : Ev) : Bool :=
  match e with
  | Ev.write t => t == n
  | _ => false

/-- precedesB p q evs holds when walking evs meets a p-event before any
q-event (vacuously when no q-event occurs): every q-event of the trace is
preceded by a p-event. -/
def precedesB (p q : Ev → Bool) : List Ev → Bool
  | [] => true
  | e :: rest => if p e then true else if q e then false else precedesB p q rest

/- ===== Concrete pipeline runs ===== -/

/-- A one-post plan for fully successful runs. -/
def okPlan : PlanJson :=
  { posts := some [{ id := "P01", post_type := "educational", topic := "habits",
                     angle := none, visual_mode := none }] }

/-- A fully successful oracle: every external call succeeds. -/
def okOracleC4 : Oracle :=
  { planRes := Except.ok okPlan, captionsRes := Except.ok (),
    visualsRes := Except.ok [], imageRes := fun _ => Except.ok () }

/-- The same successful outcomes, for the progress claim. -/
def okOracleC7 : Oracle :=
  { planRes := Except.ok okPlan, captionsRes := Except.ok (),
    visualsRes := Except.ok [{ id := "P01" }], imageRes := fun _ => Except.ok () }

/-- An oracle whose plan call rejects with message boom. -/
def failOracleC5 : Oracle :=
  { planRes := Except.error "boom", captionsRes := Except.ok (),
    visualsRes := Except.ok [], imageRes := fun _ => Except.ok () }

/-- An oracle whose plan call rejects with an empty message. -/
def emptyMsgOracle : Oracle :=
  { planRes := Except.error "", captionsRes := Except.ok (),
    visualsRes := Except.ok [], imageRes := fun _ => Except.ok () }

/-- An oracle whose plan call rejects with the parse-failure message the
generation client raises for the non-JSON response text oops. -/
def parseFailOracle : Oracle :=
  { planRes := Except.error (parseFailMsg "oops"), captionsRes := Except.ok (),
    visualsRes := Except.ok [], imageRes := fun _ => Except.ok () }

/- ===== Trace lemmas ===== -/

lemma replayJob_append (j : Job) (a b : List Ev) :
    replayJob j (a ++ b) = replayJob (replayJob j a) b :=
  List.foldl_append _ _ _ _

lemma obsStates_append (j : Job) (a b : List Ev) :
    obsStates j (a ++ b) = obsStates j a ++ obsStates (replayJob j a) b := by
  induction a generalizing j with
  | nil => simp [obsStates, replayJob]
  | cons e rest ih =>
    cases e with
    | suspend =>
      show j :: obsStates j (rest ++ b) = (j :: obsStates j rest) ++ obsStates (replayJob j (Ev.suspend :: rest)) b
      rw [List.cons_append, ih]
      rfl
    | setStatus s =>
      show obsStates (applyEv j (Ev.setStatus s)) (rest ++ b) = _
      rw [ih]
      rfl
    | setProgress n =>
      show obsStates (applyEv j (Ev.setProgress n)) (rest ++ b) = _
      rw [ih]; rfl
    | setError m =>
      show obsStates (applyEv j (Ev.setError m)) (rest ++ b) = _
      rw [ih]; rfl
    | setUrl u =>
      show obsStates (applyEv j (Ev.setUrl u)) (rest ++ b) = _
      rw [ih]; rfl
    | stageStart s =>
      show obsStates (applyEv j (Ev.stageStart s)) (rest ++ b) = _
      rw [ih]; rfl
    | stageEnd s =>
      show obsStates (applyEv j (Ev.stageEnd s)) (rest ++ b) = _
      rw [ih]; rfl
    | write n =>
      show obsStates (applyEv j (Ev.write n)) (rest ++ b) = _
      rw [ih]; rfl



lemma obsStates_renderEvs (jid : String) (f : Nat → Except String Unit) :
    ∀ (ids : List String) (i : Nat) (j x : Job),
      x ∈ obsStates j (renderEvs jid f i ids) → x = j := by
  intro ids
  induction ids with
  | nil => intro i j x hx; simp [renderEvs, obsStates, applyEv] at hx
  | cons pid rest ih =>
    intro i j x hx
    simp only [renderEvs] at hx
    rcases hfi : f i with e | u <;> rw [hfi] at hx
    · simp only [obsStates, applyEv] at hx
      simpa using hx
    · simp only [obsStates, applyEv] at hx
      rcases List.mem_cons.mp hx with h | h
      · exact h
      · exact ih (i + 1) j x h

lemma replay_renderEvs (jid : String) (f : Nat → Except String Unit) :
    ∀ (ids : List String) (i : Nat) (j : Job),
      replayJob j (renderEvs jid f i ids) =
          { status := "done", progress := 100, error := j.error,
            downloadUrl := some (dlUrl jid) } ∨
        ∃ pre raw, renderEvs jid f i ids = pre ++ [Ev.setStatus "error",
            Ev.setError (jsMsg raw)] ∧
          (∃ k, f k = Except.error raw) ∧
          replayJob j (renderEvs jid f i ids) =
            { status := "error", progress := j.progress, error := some (jsMsg raw),
              downloadUrl := j.downloadUrl } := by
  intro ids
  induction ids with
  | nil =>
    intro i j
    left
    rfl
  | cons pid rest ih =>
    intro i j
    simp only [renderEvs]
    rcases hfi : f i with e | u
    · right
      refine ⟨[Ev.suspend], e, rfl, ⟨i, hfi⟩, rfl⟩
    · rcases ih (i + 1) j with h | ⟨pre, raw, hdec, hk, hrep⟩
      · left
        simpa [replayJob, applyEv] using h
      · right
        refine ⟨Ev.suspend :: Ev.write ("Editorial_Posts/" ++ pid ++ ".png") :: pre,
          raw, by rw [hdec]; rfl, hk, ?_⟩
        simpa [replayJob, applyEv] using hrep

lemma statusList_renderEvs (jid : String) (f : Nat → Except String Unit) :
    ∀ (ids : List String) (i : Nat),
      statusList (renderEvs jid f i ids) = ["done"] ∨
        statusList (renderEvs jid f i ids) = ["error"] := by
  intro ids
  induction ids with
  | nil => intro i; left; rfl
  | cons pid rest ih =>
    intro i
    simp only [renderEvs]
    rcases hfi : f i with e | u
    · right; rfl
    · simpa [statusList] using ih (i + 1)

lemma chain_progress_aux (j fin : Job) :
    ∀ (l : List Job) (a : Job), (∀ x ∈ l, x = j) →
      a.progress ≤ j.progress → j.progress ≤ fin.progress → a.progress ≤ fin.progress →
      List.Chain' (fun u v : Job => u.progress ≤ v.progress) (a :: (l ++ [fin])) := by
  intro l
  induction l with
  | nil =>
    intro a _ _ _ haf
    exact List.chain'_pair.mpr haf
  | cons y rest ih =>
    intro a hall haj hjf _
    have hy : y = j := hall y (List.mem_cons_self _ _)
    subst hy
    rw [List.cons_append, List.chain'_cons]
    exact ⟨haj, ih y (fun x hx => hall x (List.mem_cons_of_mem _ hx)) le_rfl hjf hjf⟩

/- ===== Claims about the orchestration ===== -/

/-- C4 (counterexample): on a fully successful run, the captions stage
starts before the content-plan artifact is written, and the visual-brief
stage starts before the captions artifact is written — runJob performs all
artifact writes only after the third structured call returns, so the claim
that each stage starts only after the previous stage artifacts are durably
written is false on the code. -/
theorem C4_counterexample :
    precedesB (isWriteOf "content_plan.json") (isStartOf "captions")
        (runJob "jx" okOracleC4) = false ∧
      precedesB (isWriteOf "captions.json") (isStartOf "visual_brief")
        (runJob "jx" okOracleC4) = false :=
  ⟨rfl, rfl⟩

/-- C4 (amended): stage execution is strictly sequential — the captions
call starts only after the plan call has returned and the visual-brief
call only after the captions call has returned — and the six JSON
artifacts are all written after the visual-brief stage completes and
before image rendering begins. -/
theorem C4_stage_sequencing (jid : String) (o : Oracle) :
    precedesB (isEndOf "plan") (isStartOf "captions") (runJob jid o) = true ∧
    precedesB (isEndOf "captions") (isStartOf "visual_brief") (runJob jid o) = true ∧
    precedesB (isEndOf "visual_brief") (isWriteOf "content_plan.json") (runJob jid o) = true ∧
    precedesB (isWriteOf "content_plan.json") (isStartOf "render") (runJob jid o) = true ∧
    precedesB (isWriteOf "captions.json") (isStartOf "render") (runJob jid o) = true ∧
    precedesB (isWriteOf "editorial_visuals.json") (isStartOf "render") (runJob jid o) = true ∧
    precedesB (isWriteOf "brand_style.json") (isStartOf "render") (runJob jid o) = true ∧
    precedesB (isWriteOf "editorial_visuals_compiled.json") (isStartOf "render")
      (runJob jid o) = true ∧
    precedesB (isWriteOf "product_model_briefs.json") (isStartOf "render")
      (runJob jid o) = true := by
  unfold runJob
  rcases hp : o.planRes with e | pj
  · exact ⟨rfl, rfl, rfl, rfl, rfl, rfl, rfl, rfl, rfl⟩
  · rcases hc : o.captionsRes with e | u
    · exact ⟨rfl, rfl, rfl, rfl, rfl, rfl, rfl, rfl, rfl⟩
    · rcases hv : o.visualsRes with e | vs
      · exact ⟨rfl, rfl, rfl, rfl, rfl, rfl, rfl, rfl, rfl⟩
      · exact ⟨rfl, rfl, rfl, rfl, rfl, rfl, rfl, rfl, rfl⟩

/-- C6 (counterexample): for the four-character non-JSON response text
oops, the parse-failure message of callOpenAIJson contains the entire raw
payload — the excerpt text.slice(0, 200) is the whole text whenever the
text has at most 200 characters, so the claim that the message never
contains the full payload is false on the code. -/
theorem C6_counterexample :
    jsonParse "oops" = none ∧ containsSub (parseFailMsg "oops") "oops" = true :=
  ⟨rfl, rfl⟩

/-- C6 (amended): on any response text that fails to parse,
callOpenAIJson fails with the fixed header followed by at most the first
200 characters of the raw text, so the message length is bounded by the
header length plus 200 (texts of at most 200 characters appear in full);
and whenever any of the three structured calls of a job fails, no
artifact at all is written for that job. -/
theorem C6_parse_failure_bounded (text jid : String) (o : Oracle) (m : String)
    (h : jsonParse text = none)
    (hm : o.planRes = Except.error m ∨ o.captionsRes = Except.error m ∨
      o.visualsRes = Except.error m) :
    callOpenAIJson text = Except.error (parseFailHeader ++ takeStr 200 text) ∧
    (parseFailMsg text).length ≤ parseFailHeader.length + 200 ∧
    diskWrites (runJob jid o) = [] := by
  refine ⟨?_, ?_, ?_⟩
  · unfold callOpenAIJson
    rw [h]
    rfl
  · have h1 : (parseFailMsg text).length = parseFailHeader.length + (takeStr 200 text).length := by
      simp [parseFailMsg, String.length_append]
    have h2 : (takeStr 200 text).length = (text.data.take 200).length := rfl
    have h3 : (text.data.take 200).length ≤ 200 := by
      rw [List.length_take]
      omega
    omega
  · unfold runJob
    rcases hp : o.planRes with e | pj
    · rfl
    · rcases hc : o.captionsRes with e | u
      · rfl
      · rcases hv : o.visualsRes with e | vs
        · rfl
        · rw [hp] at hm
          rw [hc] at hm
          rw [hv] at hm
          rcases hm with hm | hm | hm <;> exact absurd hm (by simp)

/-- C6 witness: the amended claim instantiated at the non-JSON text
oops and at a run whose plan call fails with that parse-failure message. -/
theorem C6_witness :
    callOpenAIJson "oops" = Except.error (parseFailHeader ++ takeStr 200 "oops") ∧
    (parseFailMsg "oops").length ≤ parseFailHeader.length + 200 ∧
    diskWrites (runJob "jw6" parseFailOracle) = [] :=
  C6_parse_failure_bounded "oops" "jw6" parseFailOracle (parseFailMsg "oops") rfl (Or.inl rfl)

/-- C8: the job state machine — the POST handler either creates no job
(parse throw) or inserts a record in state queued with progress 0, and
every pipeline run assigns exactly the status sequence running then done,
or running then error: the run starts by entering running, ends in exactly
one terminal state, and no assignment ever follows a terminal state. -/
theorem C8_state_machine (jid : String) (o : Oracle) (s : Option String)
    (m : List (String × Job)) (nid : String) :
    initJob.status = "queued" ∧ initJob.progress = 0 ∧
    ((postJobsHandler s m nid).2 = m ∨
      (postJobsHandler s m nid).2 = (nid, initJob) :: m) ∧
    (statusList (runJob jid o) = ["running", "done"] ∨
      statusList (runJob jid o) = ["running", "error"]) := by
  refine ⟨rfl, rfl, ?_, ?_⟩
  · unfold postJobsHandler
    rcases jsonParse ((s.getD "{}")) with _ | j
    · left; rfl
    · right; rfl
  · unfold runJob
    rcases hp : o.planRes with e | pj
    · right; rfl
    · rcases hc : o.captionsRes with e | u
      · right; rfl
      · rcases hv : o.visualsRes with e | vs
        · right; rfl
        · have := statusList_renderEvs jid o.imageRes
            (editorialOnlyIds (applyMixedMode pj) vs) 0
          rcases this with hsl | hsl
          · left
            simp only [statusList, List.filterMap_cons] at *
            rw [hsl]
          · right
            simp only [statusList, List.filterMap_cons] at *
            rw [hsl]

/-- C9 (counterexample): the submission body consisting of the empty
JSON object is a malformed campaign context in the sense of the spec (no
brand, no campaign cadence), yet the POST handler accepts it and returns
a created job id — the handler never validates the parsed context, so the
claim that malformed campaign-context input yields a non-success response
is false on the code. -/
theorem C9_counterexample :
    jsonParse "{}" = some (Json.obj []) ∧
    specWellFormedContext (Json.obj []) = false ∧
    (postJobsHandler (some "{}") [] "job-1").1 = HttpResp.jobCreated "job-1" ∧
    (postJobsHandler (some "{}") [] "job-1").2 = [("job-1", initJob)] :=
  ⟨rfl, rfl, rfl, rfl⟩

/-- C9 (amended): querying an unknown job id returns the 404 body Not
found and never a job snapshot; a submission whose input_json fails to
parse as JSON throws synchronously, surfacing as a server error with no
job id returned and no job record created.  Submissions that parse as
JSON are accepted regardless of campaign-context shape. -/
theorem C9_sync_errors (m : List (String × Job)) (i s nid : String) (job : Job)
    (hm : lookupJob m i = none) (hs : jsonParse s = none) :
    getJobHandler m i = HttpResp.notFound "Not found" ∧
    getJobHandler m i ≠ HttpResp.jobSnapshot job ∧
    (postJobsHandler (some s) m nid).1 = HttpResp.serverError ∧
    (postJobsHandler (some s) m nid).1 ≠ HttpResp.jobCreated nid ∧
    (postJobsHandler (some s) m nid).2 = m := by
  have hget : getJobHandler m i = HttpResp.notFound "Not found" := by
    unfold getJobHandler
    rw [hm]
  have hpost : postJobsHandler (some s) m nid = (HttpResp.serverError, m) := by
    unfold postJobsHandler
    simp only [Option.getD_some]
    rw [hs]
  refine ⟨hget, ?_, ?_, ?_, ?_⟩
  · rw [hget]; simp
  · rw [hpost]
  · rw [hpost]; simp
  · rw [hpost]

/-- C9 witness: the amended claim instantiated at an empty job table
and the non-JSON submission body oops. -/
theorem C9_witness :
    getJobHandler [] "missing" = HttpResp.notFound "Not found" ∧
    getJobHandler [] "missing" ≠ HttpResp.jobSnapshot initJob ∧
    (postJobsHandler (some "oops") [] "n1").1 = HttpResp.serverError ∧
    (postJobsHandler (some "oops") [] "n1").1 ≠ HttpResp.jobCreated "n1" ∧
    (postJobsHandler (some "oops") [] "n1").2 = [] :=
  C9_sync_errors [] "missing" "oops" "n1" initJob rfl rfl

/-- The events of a run up to the start of the image loop, when all three
structured calls succeed. -/
def evsBeforeRender : List Ev :=
  [Ev.setStatus "running", Ev.setProgress 10, Ev.stageStart "plan", Ev.suspend,
   Ev.stageEnd "plan", Ev.setProgress 35, Ev.stageStart "captions", Ev.suspend,
   Ev.stageEnd "captions", Ev.setProgress 55, Ev.stageStart "visual_brief", Ev.suspend,
   Ev.stageEnd "visual_brief", Ev.setProgress 65,
   Ev.write "content_plan.json", Ev.write "captions.json",
   Ev.write "editorial_visuals.json", Ev.write "brand_style.json",
   Ev.write "editorial_visuals_compiled.json", Ev.write "product_model_briefs.json",
   Ev.setProgress 75, Ev.stageStart "render"]

/-- The job record at the start of the image loop. -/
def running75 : Job :=
  { status := "running", progress := 75, error := none, downloadUrl := none }

lemma runJob_success (jid : String) (o : Oracle) (pj : PlanJson) (u : Unit)
    (vs : List Visual) (hp : o.planRes = Except.ok pj) (hc : o.captionsRes = Except.ok u)
    (hv : o.visualsRes = Except.ok vs) :
    runJob jid o = evsBeforeRender ++
      renderEvs jid o.imageRes 0 (editorialOnlyIds (applyMixedMode pj) vs) := by
  unfold runJob
  rw [hp, hc, hv]
  rfl

/-- C5 (amended): every run ends with status done or error and never
re-raises; when a stage fails, the trace stops at the catch block — the
remaining stages are aborted, status becomes error, the stored message is
the captured message of some failing stage call (with an empty message
replaced by Unknown error), and the artifacts written before the failure
are exactly the artifacts on disk afterwards (no rollback). -/
theorem C5_error_capture (jid : String) (o : Oracle) :
    ((replayJob initJob (runJob jid o)).status = "done" ∨
      (replayJob initJob (runJob jid o)).status = "error") ∧
    ((replayJob initJob (runJob jid o)).status = "error" →
      ∃ pre raw,
        runJob jid o = pre ++ [Ev.setStatus "error", Ev.setError (jsMsg raw)] ∧
        stageFailed o raw ∧
        (replayJob initJob (runJob jid o)).error = some (jsMsg raw) ∧
        diskWrites (runJob jid o) = diskWrites pre) := by
  rcases hp : o.planRes with e | pj
  · have ht : runJob jid o =
        [Ev.setStatus "running", Ev.setProgress 10, Ev.stageStart "plan", Ev.suspend] ++
          [Ev.setStatus "error", Ev.setError (jsMsg e)] := by
      unfold runJob; rw [hp]; rfl
    refine ⟨Or.inr (by rw [ht]; rfl), fun _ => ?_⟩
    refine ⟨_, e, ht, Or.inl hp, by rw [ht]; rfl, by rw [ht]; rfl⟩
  · rcases hc : o.captionsRes with e | u
    · have ht : runJob jid o =
          [Ev.setStatus "running", Ev.setProgress 10, Ev.stageStart "plan", Ev.suspend,
           Ev.stageEnd "plan", Ev.setProgress 35, Ev.stageStart "captions", Ev.suspend] ++
            [Ev.setStatus "error", Ev.setError (jsMsg e)] := by
        unfold runJob; rw [hp, hc]; rfl
      refine ⟨Or.inr (by rw [ht]; rfl), fun _ => ?_⟩
      refine ⟨_, e, ht, Or.inr (Or.inl hc), by rw [ht]; rfl, by rw [ht]; rfl⟩
    · rcases hv : o.visualsRes with e | vs
      · have ht : runJob jid o =
            [Ev.setStatus "running", Ev.setProgress 10, Ev.stageStart "plan", Ev.suspend,
             Ev.stageEnd "plan", Ev.setProgress 35, Ev.stageStart "captions", Ev.suspend,
             Ev.stageEnd "captions", Ev.setProgress 55, Ev.stageStart "visual_brief",
             Ev.suspend] ++ [Ev.setStatus "error", Ev.setError (jsMsg e)] := by
          unfold runJob; rw [hp, hc, hv]; rfl
        refine ⟨Or.inr (by rw [ht]; rfl), fun _ => ?_⟩
        refine ⟨_, e, ht, Or.inr (Or.inr (Or.inl hv)), by rw [ht]; rfl, by rw [ht]; rfl⟩
      · have ht := runJob_success jid o pj u vs hp hc hv
        have hfin : replayJob initJob (runJob jid o) =
            replayJob running75
              (renderEvs jid o.imageRes 0 (editorialOnlyIds (applyMixedMode pj) vs)) := by
          rw [ht, replayJob_append]
          rfl
        rcases replay_renderEvs jid o.imageRes (editorialOnlyIds (applyMixedMode pj) vs) 0
            running75 with hdone | ⟨pre, raw, hdec, hk, hrep⟩
        · refine ⟨Or.inl (by rw [hfin, hdone]), fun habs => ?_⟩
          rw [hfin, hdone] at habs
          have h2 : ("done" : String) = "error" := habs
          exact absurd h2 (by decide)
        · refine ⟨Or.inr (by rw [hfin, hrep]), fun _ => ?_⟩
          refine ⟨evsBeforeRender ++ pre, raw, ?_, Or.inr (Or.inr (Or.inr hk)),
            by rw [hfin, hrep], ?_⟩
          · rw [ht, hdec, List.append_assoc]
          · rw [ht, hdec]
            simp [diskWrites, List.filterMap_append]

/-- C5 witness: the amended claim instantiated at a run whose plan call
rejects with message boom. -/
theorem C5_witness :
    ∃ pre raw,
      runJob "jw5" failOracleC5 = pre ++ [Ev.setStatus "error", Ev.setError (jsMsg raw)] ∧
      stageFailed failOracleC5 raw ∧
      (replayJob initJob (runJob "jw5" failOracleC5)).error = some (jsMsg raw) ∧
      diskWrites (runJob "jw5" failOracleC5) = diskWrites pre :=
  (C5_error_capture "jw5" failOracleC5).2 rfl

/-- C5 (counterexample): a stage error carrying the empty message is
stored as Unknown error, not as the captured (empty) message — the
fallback in err?.message or Unknown error replaces it, so the claim that
the captured error message is stored verbatim is false on the code. -/
theorem C5_counterexample :
    emptyMsgOracle.planRes = Except.error "" ∧
    (replayJob initJob (runJob "jc5" emptyMsgOracle)).status = "error" ∧
    (replayJob initJob (runJob "jc5" emptyMsgOracle)).error = some "Unknown error" ∧
    (replayJob initJob (runJob "jc5" emptyMsgOracle)).error ≠ some "" := by
  refine ⟨rfl, rfl, rfl, by decide⟩

/-- C7: over the sequence of job states a poller can observe — the
created record, the record at every suspension point, and the final
record — progress is a monotonically non-decreasing integer bounded by
100, and progress equals 100 only in states whose status is done. -/
theorem C7_progress_monotone (jid : String) (o : Oracle) :
    List.Chain' (fun u v : Job => u.progress ≤ v.progress) (jobSnapshots (runJob jid o)) ∧
    (∀ j ∈ jobSnapshots (runJob jid o),
      j.progress ≤ 100 ∧ (j.progress = 100 → j.status = "done")) := by
  rcases hp : o.planRes with e | pj
  · have hsnap : jobSnapshots (runJob jid o) =
        [initJob, { status := "running", progress := 10, error := none, downloadUrl := none },
         { status := "error", progress := 10, error := some (jsMsg e), downloadUrl := none }] := by
      unfold jobSnapshots runJob
      rw [hp]
      rfl
    rw [hsnap]
    constructor
    · exact List.chain'_cons.mpr ⟨Nat.zero_le _,
        List.chain'_cons.mpr ⟨Nat.le_refl _, List.chain'_singleton _⟩⟩
    · intro j hj
      rcases List.mem_cons.mp hj with rfl | hj
      · exact ⟨by decide, by decide⟩
      rcases List.mem_cons.mp hj with rfl | hj
      · exact ⟨by decide, by decide⟩
      rcases List.mem_cons.mp hj with rfl | hj
      · exact ⟨(show (10 : Nat) ≤ 100 by decide),
          fun h => absurd h (show ¬ (10 : Nat) = 100 by decide)⟩
      · simp at hj
  · rcases hc : o.captionsRes with e | u
    · have hsnap : jobSnapshots (runJob jid o) =
          [initJob, { status := "running", progress := 10, error := none, downloadUrl := none },
           { status := "running", progress := 35, error := none, downloadUrl := none },
           { status := "error", progress := 35, error := some (jsMsg e), downloadUrl := none }] := by
        unfold jobSnapshots runJob
        rw [hp, hc]
        rfl
      rw [hsnap]
      constructor
      · exact List.chain'_cons.mpr ⟨Nat.zero_le _, List.chain'_cons.mpr ⟨by decide,
          List.chain'_cons.mpr ⟨Nat.le_refl _, List.chain'_singleton _⟩⟩⟩
      · intro j hj
        rcases List.mem_cons.mp hj with rfl | hj
        · exact ⟨by decide, by decide⟩
        rcases List.mem_cons.mp hj with rfl | hj
        · exact ⟨by decide, by decide⟩
        rcases List.mem_cons.mp hj with rfl | hj
        · exact ⟨by decide, by decide⟩
        rcases List.mem_cons.mp hj with rfl | hj
        · exact ⟨(show (35 : Nat) ≤ 100 by decide),
            fun h => absurd h (show ¬ (35 : Nat) = 100 by decide)⟩
        · simp at hj
    · rcases hv : o.visualsRes with e | vs
      · have hsnap : jobSnapshots (runJob jid o) =
            [initJob, { status := "running", progress := 10, error := none, downloadUrl := none },
             { status := "running", progress := 35, error := none, downloadUrl := none },
             { status := "running", progress := 55, error := none, downloadUrl := none },
             { status := "error", progress := 55, error := some (jsMsg e),
               downloadUrl := none }] := by
          unfold jobSnapshots runJob
          rw [hp, hc, hv]
          rfl
        rw [hsnap]
        constructor
        · exact List.chain'_cons.mpr ⟨Nat.zero_le _, List.chain'_cons.mpr ⟨by decide,
            List.chain'_cons.mpr ⟨by decide, List.chain'_cons.mpr ⟨Nat.le_refl _,
              List.chain'_singleton _⟩⟩⟩⟩
        · intro j hj
          rcases List.mem_cons.mp hj with rfl | hj
          · exact ⟨by decide, by decide⟩
          rcases List.mem_cons.mp hj with rfl | hj
          · exact ⟨by decide, by decide⟩
          rcases List.mem_cons.mp hj with rfl | hj
          · exact ⟨by decide, by decide⟩
          rcases List.mem_cons.mp hj with rfl | hj
          · exact ⟨by decide, by decide⟩
          rcases List.mem_cons.mp hj with rfl | hj
          · exact ⟨(show (55 : Nat) ≤ 100 by decide),
              fun h => absurd h (show ¬ (55 : Nat) = 100 by decide)⟩
          · simp at hj
      · have ht := runJob_success jid o pj u vs hp hc hv
        have hsnap : jobSnapshots (runJob jid o) =
            initJob ::
              { status := "running", progress := 10, error := none, downloadUrl := none } ::
              { status := "running", progress := 35, error := none, downloadUrl := none } ::
              { status := "running", progress := 55, error := none, downloadUrl := none } ::
              (obsStates running75
                  (renderEvs jid o.imageRes 0 (editorialOnlyIds (applyMixedMode pj) vs)) ++
                [replayJob running75
                  (renderEvs jid o.imageRes 0 (editorialOnlyIds (applyMixedMode pj) vs))]) := by
          unfold jobSnapshots
          rw [ht, obsStates_append, replayJob_append]
          rfl
        have hall : ∀ x ∈ obsStates running75
            (renderEvs jid o.imageRes 0 (editorialOnlyIds (applyMixedMode pj) vs)),
            x = running75 :=
          fun x hx => obsStates_renderEvs jid o.imageRes _ 0 running75 x hx
        have hfin75 : running75.progress ≤ (replayJob running75
            (renderEvs jid o.imageRes 0 (editorialOnlyIds (applyMixedMode pj) vs))).progress := by
          rcases replay_renderEvs jid o.imageRes (editorialOnlyIds (applyMixedMode pj) vs) 0
              running75 with hdone | ⟨pre, raw, hdec, hk, hrep⟩
          · rw [hdone]
            exact (show (75 : Nat) ≤ 100 by decide)
          · rw [hrep]
        rw [hsnap]
        constructor
        · refine List.chain'_cons.mpr ⟨Nat.zero_le _, List.chain'_cons.mpr ⟨by decide,
            List.chain'_cons.mpr ⟨by decide, ?_⟩⟩⟩
          exact chain_progress_aux running75 _ _ _ hall (by decide) hfin75
            (le_trans (by decide) hfin75)
        · intro j hj
          rcases List.mem_cons.mp hj with rfl | hj
          · exact ⟨by decide, by decide⟩
          rcases List.mem_cons.mp hj with rfl | hj
          · exact ⟨by decide, by decide⟩
          rcases List.mem_cons.mp hj with rfl | hj
          · exact ⟨by decide, by decide⟩
          rcases List.mem_cons.mp hj with rfl | hj
          · exact ⟨by decide, by decide⟩
          rcases List.mem_append.mp hj with hj | hj
          · have hx := hall j hj
            subst hx
            exact ⟨(show (75 : Nat) ≤ 100 by decide),
              fun h => absurd h (show ¬ (75 : Nat) = 100 by decide)⟩
          · have hj2 : j = replayJob running75
                (renderEvs jid o.imageRes 0 (editorialOnlyIds (applyMixedMode pj) vs)) := by
              simpa using hj
            subst hj2
            rcases replay_renderEvs jid o.imageRes (editorialOnlyIds (applyMixedMode pj) vs) 0
                running75 with hdone | ⟨pre, raw, hdec, hk, hrep⟩
            · rw [hdone]
              exact ⟨Nat.le_refl _, fun _ => rfl⟩
            · rw [hrep]
              exact ⟨(show (75 : Nat) ≤ 100 by decide),
                fun h => absurd h (show ¬ (75 : Nat) = 100 by decide)⟩

/-- C7 witness: the progress claim instantiated at a fully successful
run, with the created record as the inspected snapshot. -/
theorem C7_witness :
    List.Chain' (fun u v : Job => u.progress ≤ v.progress)
      (jobSnapshots (runJob "jw7" okOracleC7)) ∧
    (initJob.progress ≤ 100 ∧ (initJob.progress = 100 → initJob.status = "done")) :=
  ⟨(C7_progress_monotone "jw7" okOracleC7).1,
    (C7_progress_monotone "jw7" okOracleC7).2 initJob (by decide)⟩
